import Mathlib

/-!
Shallow embedding of src/src/encoder.rs (vorbis-enc): a file-based
Ogg-Vorbis audio encoder built as a lifecycle facade over a perceptual
encoder state (libvorbis) and a container framer (libogg).

The FFI layers (libvorbis, libogg) are opaque C libraries; their behaviour
is modelled abstractly: the pages the framer will yield to pageout/flush
calls, the analysis blocks the dsp will yield to blockout, and the packets
the bitrate manager flushes per block are abstract oracle data carried in
the state, over which theorems quantify. All control flow, byte accounting,
error strings and state transitions of encoder.rs itself are translated
line by line.
-/

set_option autoImplicit false

namespace VorbisEnc

/-- A compressed packet (audio or header unit); its payload is opaque to the
facade, identified here by a tag. Mirrors ogg_packet as used by encoder.rs. -/
structure Packet where
  id : Nat
deriving DecidableEq, Repr

/-- An ogg page as seen at serialization time (lines 431-432, 463-464 of
encoder.rs): header bytes, body bytes, and the end-of-stream flag that
ogg_page_eos reports. -/
structure Page where
  header : List Nat
  body : List Nat
  eos : Bool
deriving DecidableEq, Repr

/-- The output sink (std::fs::File in the source): an append-only byte
destination. The failing flag models an I/O device whose write calls fail
(for example, disk full). -/
structure Sink where
  data : List Nat
  failing : Bool
deriving DecidableEq, Repr

/-- file.write_all(buf): on success appends the bytes and returns Ok, on
failure appends nothing and returns Err. The source always discards the
returned Result with .ok(), which corresponds to taking only the first
component here. -/
def Sink.write_all (file : Sink) (buf : List Nat) : Sink × Bool :=
  if file.failing then (file, false)
  else ({ file with data := file.data ++ buf }, true)

/-- One analysis block of the perceptual encoder: opaque to the framer. Its
packets field is the abstract list of packets vorbis_bitrate_flushpacket
yields after the bitrate-management pass (vorbis_analysis followed by
vorbis_bitrate_addblock) over this block. -/
structure Block where
  packets : List Packet
deriving DecidableEq, Repr

/-- Abstract state of the libvorbis encoder (struct VorbisState in
encoder.rs). channels is the stored channel count; submitted accumulates
the per-channel normalized float samples written into the analysis buffers
(modelled in rationals: division of an i16 by 32768.0 is exact in f32);
wroteLog records the frame counts passed to vorbis_analysis_wrote;
blocks are the analysis blocks vorbis_analysis_blockout will yield;
headerPackets are the three packets vorbis_analysis_headerout produces;
vbrMode records which of vorbis_encode_init / vorbis_encode_init_vbr
configured the codec. -/
structure VorbisState where
  channels : Nat
  submitted : List (List ℚ)
  wroteLog : List Nat
  blocks : List Block
  headerPackets : Packet × Packet × Packet
  vbrMode : Bool
deriving DecidableEq, Repr

/-- Abstract state of the libogg stream (struct OggState in encoder.rs):
serial is the stream identity chosen at init; packets lists the packets
submitted via ogg_stream_packetin; outQ and flushQ are the abstract queues
of pages that successive ogg_stream_pageout and ogg_stream_flush calls
will yield (a call returns 0 exactly when its queue is empty). -/
structure OggState where
  serial : Nat
  packets : List Packet
  outQ : List Page
  flushQ : List Page
deriving DecidableEq, Repr

/-- ogg_stream_packetin: submits a packet to the framer. -/
def ogg_stream_packetin (os : OggState) (p : Packet) : OggState :=
  { os with packets := os.packets ++ [p] }

/-- Serialization of one page inside the write loops (lines 431-434 and
463-466): file.write_all(header).ok(); file.write_all(body).ok(); both
Results discarded. -/
def writePageBytes (file : Sink) (pg : Page) : Sink :=
  ((file.write_all pg.header).1.write_all pg.body).1

/-- Loop body of OggState::write_page (lines 417-448), recursing on the
queue of pages ogg_stream_pageout will yield: result 0 (empty queue) breaks;
otherwise the page is written to the sink (write errors discarded), its
header and body lengths are added to bytes_written, and the loop breaks
early if ogg_page_eos is set on the page. Returns the remaining queue, the
sink, and bytes_written. -/
def write_page_go : List Page → Sink → Nat → List Page × Sink × Nat
  | [], file, acc => ([], file, acc)
  | pg :: rest, file, acc =>
    let file2 := writePageBytes file pg
    let acc2 := acc + pg.header.length + pg.body.length
    if pg.eos then (rest, file2, acc2)
    else write_page_go rest file2 acc2

/-- OggState::write_page (lines 417-448). -/
def OggState.write_page (os : OggState) (file : Sink) :
    OggState × Sink × Nat :=
  let r := write_page_go os.outQ file 0
  ({ os with outQ := r.1 }, r.2.1, r.2.2)

/-- Loop body of OggState::write_flush (lines 450-474), recursing on the
queue of pages ogg_stream_flush will yield: result 0 breaks; otherwise the
page is written to the sink (write errors discarded) and its lengths are
added to bytes_written. Unlike write_page_go there is no end-of-stream
break. Returns the sink and bytes_written. -/
def write_flush_go : List Page → Sink → Nat → Sink × Nat
  | [], file, acc => (file, acc)
  | pg :: rest, file, acc =>
    write_flush_go rest (writePageBytes file pg)
      (acc + pg.header.length + pg.body.length)

/-- OggState::write_flush (lines 450-474). -/
def OggState.write_flush (os : OggState) (file : Sink) :
    OggState × Sink × Nat :=
  let r := write_flush_go os.flushQ file 0
  ({ os with flushQ := [] }, r.1, r.2)

/-! Specification vocabulary for the page loops: total bytes of a page, the
pages of a queue up to and including the first end-of-stream page, and the
remainder after it. -/

/-- Header length plus body length of one page. -/
def pageBytes (pg : Page) : Nat :=
  pg.header.length + pg.body.length

/-- The pages a single write_page call serializes: the queue up to and
including the first page with the end-of-stream flag. -/
def takeThroughEos : List Page → List Page
  | [] => []
  | pg :: rest => if pg.eos then [pg] else pg :: takeThroughEos rest

/-- The pages a single write_page call leaves in the queue. -/
def dropThroughEos : List Page → List Page
  | [] => []
  | pg :: rest => if pg.eos then rest else dropThroughEos rest

/-- Effect on the sink of serializing a list of pages in order. -/
def writeSinkPages (file : Sink) (ps : List Page) : Sink :=
  ps.foldl writePageBytes file

/-- Sum of header+body lengths over a list of pages. -/
def pagesBytes (ps : List Page) : Nat :=
  (ps.map pageBytes).sum

theorem writeSinkPages_nil (file : Sink) : writeSinkPages file [] = file := rfl

theorem writeSinkPages_cons (file : Sink) (pg : Page) (ps : List Page) :
    writeSinkPages file (pg :: ps) = writeSinkPages (writePageBytes file pg) ps := rfl

/-- Characterization of the write_page loop: it serializes exactly the
pages up to and including the first end-of-stream page, counts their bytes,
and leaves the rest queued. -/
theorem write_page_go_eq (q : List Page) :
    ∀ (file : Sink) (acc : Nat),
      write_page_go q file acc =
        (dropThroughEos q, writeSinkPages file (takeThroughEos q),
          acc + pagesBytes (takeThroughEos q)) := by
  induction q with
  | nil => intro file acc; simp [write_page_go, dropThroughEos, takeThroughEos,
      writeSinkPages, pagesBytes]
  | cons pg rest ih =>
    intro file acc
    by_cases h : pg.eos
    · simp [write_page_go, dropThroughEos, takeThroughEos, h, writeSinkPages,
        pagesBytes, pageBytes, Nat.add_assoc]
    · simp only [write_page_go, dropThroughEos, takeThroughEos, h, if_false, ih]
      simp [writeSinkPages_cons, pagesBytes, pageBytes, Nat.add_assoc]

/-- Characterization of the write_flush loop: it serializes every page of
the flush queue and counts all their bytes, with no early stop. -/
theorem write_flush_go_eq (q : List Page) :
    ∀ (file : Sink) (acc : Nat),
      write_flush_go q file acc =
        (writeSinkPages file q, acc + pagesBytes q) := by
  induction q with
  | nil => intro file acc; simp [write_flush_go, writeSinkPages, pagesBytes]
  | cons pg rest ih =>
    intro file acc
    simp only [write_flush_go, ih, writeSinkPages_cons]
    simp [pagesBytes, pageBytes, Nat.add_assoc]

/-- A failing sink is left untouched by page serialization. -/
theorem writePageBytes_failing (file : Sink) (pg : Page)
    (h : file.failing = true) : writePageBytes file pg = file := by
  simp [writePageBytes, Sink.write_all, h]

theorem writeSinkPages_failing (ps : List Page) :
    ∀ (file : Sink), file.failing = true → writeSinkPages file ps = file := by
  induction ps with
  | nil => intro file _; rfl
  | cons pg rest ih =>
    intro file h
    rw [writeSinkPages_cons, writePageBytes_failing file pg h, ih file h]

/-! The perceptual encoder state (struct VorbisState, lines 224-342). -/

/-- VorbisState::init (lines 245-251): pre_init stores the channel count and
adds the ENCODER comment tag; vorbis_encode_init configures bitrate mode,
its return code codecResult being discarded by the source (line 248);
post_init sets up a fresh dsp and block state. -/
def VorbisState.init (v : VorbisState) (channels : Nat) (sample_rate : Int)
    (max_bitrate : Int) (nominal_bitrate : Int) (min_bitrate : Int)
    (codecResult : Int) : VorbisState :=
  { v with
    channels := channels,
    submitted := List.replicate channels [],
    wroteLog := [],
    vbrMode := false }

/-- VorbisState::init_vbr (lines 253-259): like init but configuring the
codec through vorbis_encode_init_vbr with a quality scalar; the return code
codecResult is again discarded. -/
def VorbisState.init_vbr (v : VorbisState) (channels : Nat)
    (sample_rate : Int) (quality : ℚ) (codecResult : Int) : VorbisState :=
  { v with
    channels := channels,
    submitted := List.replicate channels [],
    wroteLog := [],
    vbrMode := true }

/-- The sample conversion performed inside VorbisState::write_samples
(lines 261-305): the interleaved i16 slice is turned into per-channel f32
buffers. channels = 1: mono[i] = samples[i] / 32768.0 for i < len.
channels = 2: left[i] = samples[i*2] / 32768.0 and
right[i] = samples[i*2+1] / 32768.0 for i < len / 2. Any other channel
count fills no buffer. The second component is the frame count
len / channels passed to vorbis_analysis_wrote (line 302). Division of an
integer in i16 range by 32768.0 is exact in f32, so values live in ℚ. -/
def convertSamples (channels : Nat) (samples : List Int) :
    List (List ℚ) × Nat :=
  let len := samples.length
  let bufs :=
    if channels = 1 then
      [samples.map (fun s : Int => (s : ℚ) / 32768)]
    else if channels = 2 then
      [(List.range (len / 2)).map
          (fun i : Nat => ((samples.getD (i * 2) 0 : Int) : ℚ) / 32768),
        (List.range (len / 2)).map
          (fun i : Nat => ((samples.getD (i * 2 + 1) 0 : Int) : ℚ) / 32768)]
    else []
  (bufs, len / channels)

/-- VorbisState::write_samples (lines 261-305): requests the analysis
buffers, writes the converted samples into them (accumulated here in
submitted, per channel), and commits len / channels frames via
vorbis_analysis_wrote. -/
def VorbisState.write_samples (v : VorbisState) (samples : List Int) :
    VorbisState :=
  let r := convertSamples v.channels samples
  { v with
    submitted := List.zipWith (fun a b => a ++ b) v.submitted r.1,
    wroteLog := v.wroteLog ++ [r.2] }

/-- VorbisState::close (lines 307-311): vorbis_analysis_wrote(vd, 0)
signals end of input. -/
def VorbisState.close (v : VorbisState) : VorbisState :=
  { v with wroteLog := v.wroteLog ++ [0] }

/-! The container framer (struct OggState, lines 346-482). -/

/-- OggState::init (lines 363-387): ogg_stream_init with a random serial
number (an oracle parameter here) resets the packet buffer; the abstract
page queues model future framing decisions and persist;
vorbis_analysis_headerout yields the three header packets, which are
submitted in order via ogg_stream_packetin. -/
def OggState.init (os : OggState) (vorbis : VorbisState) (serial_no : Nat) :
    OggState :=
  let os0 : OggState := { os with serial := serial_no, packets := [] }
  let os1 := ogg_stream_packetin os0 vorbis.headerPackets.1
  let os2 := ogg_stream_packetin os1 vorbis.headerPackets.2.1
  ogg_stream_packetin os2 vorbis.headerPackets.2.2

/-- One event of the packet-draining loop of OggState::write, recording the
calls made into the codec: a successful vorbis_analysis_blockout pull, the
vorbis_analysis pass, the vorbis_bitrate_addblock call, and each packet
vorbis_bitrate_flushpacket yields. -/
inductive DrainEv where
  | blockout
  | analysis
  | addblock
  | flushpacket (p : Packet)
deriving DecidableEq, Repr

/-- Result of OggState::write: updated framer state, sink, the bytes_written
count it returns, and the trace of codec calls made by the loop. -/
structure WriteResult where
  ogg : OggState
  file : Sink
  bytes : Nat
  trace : List DrainEv
deriving DecidableEq, Repr

/-- Inner loop of OggState::write (lines 401-409): while
vorbis_bitrate_flushpacket yields a packet, submit it via
ogg_stream_packetin and run write_page, accumulating bytes_written. -/
def write_drain_packets : List Packet → OggState → Sink → Nat → List DrainEv →
    WriteResult
  | [], os, file, acc, tr => ⟨os, file, acc, tr⟩
  | p :: ps, os, file, acc, tr =>
    let os1 := ogg_stream_packetin os p
    let r := os1.write_page file
    write_drain_packets ps r.1 r.2.1 (acc + r.2.2)
      (tr ++ [DrainEv.flushpacket p])

/-- Outer loop of OggState::write (lines 393-411): while
vorbis_analysis_blockout returns 1, run vorbis_analysis (with a null
pointer, so bitrate management is used) and vorbis_bitrate_addblock on the
block, then drain its packets. -/
def write_drain_blocks : List Block → OggState → Sink → Nat → List DrainEv →
    WriteResult
  | [], os, file, acc, tr => ⟨os, file, acc, tr⟩
  | b :: bs, os, file, acc, tr =>
    let r := write_drain_packets b.packets os file acc
      (tr ++ [DrainEv.blockout, DrainEv.analysis, DrainEv.addblock])
    write_drain_blocks bs r.ogg r.file r.bytes r.trace

/-- OggState::write (lines 389-415): drains every available analysis block;
afterwards the dsp has no block left for blockout to yield. -/
def OggState.write (os : OggState) (file : Sink) (vorbis : VorbisState) :
    WriteResult × VorbisState :=
  (write_drain_blocks vorbis.blocks os file 0 [], { vorbis with blocks := [] })

/-! The public facade (struct OggVorbisEncoder, lines 71-213). -/

/-- EncoderState (lines 71-76). -/
inductive EncoderState where
  | Created
  | Initialized
  | Closed
deriving DecidableEq, BEq, Repr

/-- OggVorbisEncoder (lines 82-88): output file, framer state, perceptual
encoder state, lifecycle state and the running byte counter file_size. -/
structure OggVorbisEncoder where
  file : Sink
  ogg : OggState
  vorbis : VorbisState
  state : EncoderState
  file_size : Nat
deriving DecidableEq, Repr

/-- OggVorbisEncoder::new (lines 93-104) on the success path: fresh sink,
state Created, file_size 0. The zeroed FFI structs carry the abstract
oracle content (page queues, blocks, header packets) as parameters. -/
def OggVorbisEncoder.new (file : Sink) (ogg : OggState)
    (vorbis : VorbisState) : OggVorbisEncoder :=
  { file := file, ogg := ogg, vorbis := vorbis,
    state := EncoderState.Created, file_size := 0 }

/-- the bitrate-mode initialize method of OggVorbisEncoder (lines 108-142). codecResult is the return
code of vorbis_encode_init and serial_no the random serial, both oracle
inputs. Note line 128: the byte count returned by write_flush is dropped,
so unlike in initialize_with_vbr, file_size is not increased. -/
def OggVorbisEncoder.initialize_with_bitrate (e : OggVorbisEncoder) (channels : Nat)
    (sample_rate : Nat) (nominal_bitrate : Nat)
    (min_bitrate : Option Nat) (max_bitrate : Option Nat)
    (codecResult : Int) (serial_no : Nat) :
    Except String Unit × OggVorbisEncoder :=
  match e.state with
  | EncoderState.Created =>
    let v := e.vorbis.init channels (sample_rate : Int)
      (max_bitrate.elim (-1) (fun b => (b : Int)))
      (nominal_bitrate : Int)
      (min_bitrate.elim (-1) (fun b => (b : Int)))
      codecResult
    let og := e.ogg.init v serial_no
    let r := og.write_flush e.file
    (Except.ok (),
      { e with
        vorbis := v,
        ogg := r.1,
        file := r.2.1,
        state := EncoderState.Initialized })
  | EncoderState.Initialized =>
    (Except.error "Audio stream already initialized.", e)
  | EncoderState.Closed =>
    (Except.error "Audio stream already closed.", e)

/-- OggVorbisEncoder::initialize_with_vbr (lines 145-171). Here line 157
does add the write_flush byte count to file_size. -/
def OggVorbisEncoder.initialize_with_vbr (e : OggVorbisEncoder)
    (channels : Nat) (sample_rate : Nat) (quality : ℚ)
    (codecResult : Int) (serial_no : Nat) :
    Except String Unit × OggVorbisEncoder :=
  match e.state with
  | EncoderState.Created =>
    let v := e.vorbis.init_vbr channels (sample_rate : Int) quality codecResult
    let og := e.ogg.init v serial_no
    let r := og.write_flush e.file
    (Except.ok (),
      { e with
        vorbis := v,
        ogg := r.1,
        file := r.2.1,
        file_size := e.file_size + r.2.2,
        state := EncoderState.Initialized })
  | EncoderState.Initialized =>
    (Except.error "Audio stream already initialized.", e)
  | EncoderState.Closed =>
    (Except.error "Audio stream already closed.", e)

/-- OggVorbisEncoder::write_samples (lines 174-188). -/
def OggVorbisEncoder.write_samples (e : OggVorbisEncoder)
    (samples : List Int) : Except String Unit × OggVorbisEncoder :=
  match e.state with
  | EncoderState.Created =>
    (Except.error "Audio stream not initialized.", e)
  | EncoderState.Initialized =>
    let v := e.vorbis.write_samples samples
    let r := e.ogg.write e.file v
    (Except.ok (),
      { e with
        vorbis := r.2,
        ogg := r.1.ogg,
        file := r.1.file,
        file_size := e.file_size + r.1.bytes })
  | EncoderState.Closed =>
    (Except.error "Audio stream already closed.", e)

/-- OggVorbisEncoder::close (lines 191-206). Line 199 of the source reads
self.state == EncoderState::Closed; — an equality comparison whose Bool
result is discarded, not an assignment — so the state field is left
unchanged by the success path. -/
def OggVorbisEncoder.close (e : OggVorbisEncoder) :
    Except String Unit × OggVorbisEncoder :=
  match e.state with
  | EncoderState.Created =>
    (Except.error "Audio stream not initialized.", e)
  | EncoderState.Initialized =>
    let v := e.vorbis.close
    let r := e.ogg.write e.file v
    let _cmp := e.state == EncoderState.Closed
    (Except.ok (),
      { e with
        vorbis := r.2,
        ogg := r.1.ogg,
        file := r.1.file,
        file_size := e.file_size + r.1.bytes })
  | EncoderState.Closed =>
    (Except.error "Audio stream already closed.", e)

/-- OggVorbisEncoder::len (lines 209-211): the bytes_written accessor. -/
def OggVorbisEncoder.len (e : OggVorbisEncoder) : Nat :=
  e.file_size

/-- One public mutating call, for statements quantifying over all
operations. -/
inductive Op where
  | initOp (channels sample_rate nominal_bitrate : Nat)
      (min_bitrate max_bitrate : Option Nat)
      (codecResult : Int) (serial_no : Nat)
  | initVbrOp (channels sample_rate : Nat) (quality : ℚ)
      (codecResult : Int) (serial_no : Nat)
  | writeOp (samples : List Int)
  | closeOp
deriving DecidableEq, Repr

/-- Dispatch of one public mutating call to the corresponding method. -/
def step (op : Op) (e : OggVorbisEncoder) :
    Except String Unit × OggVorbisEncoder :=
  match op with
  | Op.initOp c sr nb minB maxB cr sn => e.initialize_with_bitrate c sr nb minB maxB cr sn
  | Op.initVbrOp c sr q cr sn => e.initialize_with_vbr c sr q cr sn
  | Op.writeOp samples => e.write_samples samples
  | Op.closeOp => e.close

/-! Concrete fixtures used to evaluate the model. -/

/-- A working (non-failing) empty sink. -/
def sink0 : Sink :=
  { data := [], failing := false }

/-- A non-final page of 4 bytes. -/
def samplePage : Page :=
  { header := [0, 1], body := [2, 3], eos := false }

/-- A page of 3 bytes carrying the end-of-stream flag. -/
def eosPage : Page :=
  { header := [4, 5], body := [6], eos := true }

/-- A zeroed perceptual encoder state whose header packets are tagged
0, 1, 2. -/
def vorbis0 : VorbisState :=
  { channels := 0, submitted := [], wroteLog := [], blocks := [],
    headerPackets := (⟨0⟩, ⟨1⟩, ⟨2⟩), vbrMode := false }

/-- A stereo-configured perceptual encoder state with no pending block. -/
def vorbis2 : VorbisState :=
  { channels := 2, submitted := [[], []], wroteLog := [], blocks := [],
    headerPackets := (⟨0⟩, ⟨1⟩, ⟨2⟩), vbrMode := false }

/-- A framer state whose forced flush will yield one 4-byte header page. -/
def ogg0 : OggState :=
  { serial := 0, packets := [], outQ := [], flushQ := [samplePage] }

/-- An encoder that has reached state Initialized, configured for stereo. -/
def encInit : OggVorbisEncoder :=
  { file := sink0, ogg := ogg0, vorbis := vorbis2,
    state := EncoderState.Initialized, file_size := 0 }

/-- C5: for every sample slice, write_samples on an encoder in state Created
(a freshly constructed encoder, before initialize) returns the
lifecycle-violation error "Audio stream not initialized.", leaves the
encoder unchanged, writes no bytes to the sink, and bytes_written stays
0. -/
theorem write_samples_before_init_fails (f : Sink) (og : OggState)
    (v : VorbisState) (samples : List Int) :
    (OggVorbisEncoder.new f og v).write_samples samples =
      (Except.error "Audio stream not initialized.",
        OggVorbisEncoder.new f og v) ∧
    ((OggVorbisEncoder.new f og v).write_samples samples).2.file = f ∧
    ((OggVorbisEncoder.new f og v).write_samples samples).2.len = 0 :=
  ⟨rfl, rfl, rfl⟩

/-- C9: whenever a public mutating call (initialize, initialize_with_vbr,
write_samples or close) returns an error, the encoder is exactly as before
the call: lifecycle state, byte counter and sink included. -/
theorem step_errors_leave_encoder_unchanged (op : Op) (e : OggVorbisEncoder)
    (s : String) (h : (step op e).1 = Except.error s) :
    (step op e).2 = e := by
  cases op <;> cases hst : e.state <;>
    simp_all [step, OggVorbisEncoder.initialize_with_bitrate,
      OggVorbisEncoder.initialize_with_vbr, OggVorbisEncoder.write_samples,
      OggVorbisEncoder.close]

/-- Witness for C9 at a concrete input: close before initialize errors and
leaves the fresh encoder untouched. -/
theorem step_errors_leave_encoder_unchanged_witness :
    (step Op.closeOp (OggVorbisEncoder.new sink0 ogg0 vorbis0)).2 =
      OggVorbisEncoder.new sink0 ogg0 vorbis0 :=
  step_errors_leave_encoder_unchanged Op.closeOp
    (OggVorbisEncoder.new sink0 ogg0 vorbis0)
    "Audio stream not initialized." rfl

/-- C1: the source line self.state == EncoderState::Closed; compares instead
of assigning, so close on an Initialized encoder returns Ok but leaves the
state Initialized; a second close therefore returns Ok again instead of the
lifecycle-violation error "Audio stream already closed." — the Closed state
is never reached. -/
theorem close_succeeds_but_state_not_closed (e : OggVorbisEncoder)
    (samples : List Int) (h : e.state = EncoderState.Initialized) :
    (e.close).1 = Except.ok () ∧
    (e.close).2.state = EncoderState.Initialized ∧
    ((e.close).2.close).1 = Except.ok () ∧
    ((e.close).2.write_samples samples).1 = Except.ok () ∧
    ∀ (c sr nb : Nat) (minB maxB : Option Nat) (cr : Int) (sn : Nat),
      ((e.close).2.initialize_with_bitrate c sr nb minB maxB cr sn).1 =
        Except.error "Audio stream already initialized." := by
  simp [OggVorbisEncoder.close, OggVorbisEncoder.write_samples,
    OggVorbisEncoder.initialize_with_bitrate, h]

/-- Witness for C1 at a concrete input: an initialized stereo encoder. -/
theorem close_succeeds_but_state_not_closed_witness :
    (encInit.close).1 = Except.ok () ∧
    (encInit.close).2.state = EncoderState.Initialized ∧
    ((encInit.close).2.close).1 = Except.ok () ∧
    ((encInit.close).2.write_samples [5, 6]).1 = Except.ok () ∧
    ∀ (c sr nb : Nat) (minB maxB : Option Nat) (cr : Int) (sn : Nat),
      ((encInit.close).2.initialize_with_bitrate c sr nb minB maxB cr sn).1 =
        Except.error "Audio stream already initialized." :=
  close_succeeds_but_state_not_closed encInit [5, 6] rfl

/-- C3 counterexample: with the codec rejecting the configuration
(vorbis_encode_init returning the error code -1), initialize still returns
Ok: the return code is discarded, so rejection is never surfaced, contrary
to the claim that such a call returns Err. -/
theorem initialize_ok_despite_codec_rejection :
    ((OggVorbisEncoder.new sink0 ogg0 vorbis0).initialize_with_bitrate 2 44100 128000
      none none (-1) 7).1 = Except.ok () :=
  rfl

/-- C3 amended: in state Created, initialize and initialize_with_vbr return
Ok for every return code of the underlying codec: configuration rejection
is not surfaced at initialization time (nor anywhere else). -/
theorem initialize_accepts_any_codec_result (e : OggVorbisEncoder)
    (channels sample_rate nominal_bitrate : Nat)
    (min_bitrate max_bitrate : Option Nat) (quality : ℚ)
    (codecResult : Int) (serial_no : Nat)
    (h : e.state = EncoderState.Created) :
    (e.initialize_with_bitrate channels sample_rate nominal_bitrate min_bitrate
      max_bitrate codecResult serial_no).1 = Except.ok () ∧
    (e.initialize_with_vbr channels sample_rate quality codecResult
      serial_no).1 = Except.ok () := by
  simp [OggVorbisEncoder.initialize_with_bitrate, OggVorbisEncoder.initialize_with_vbr, h]

/-- Witness for the amended C3 at a concrete input: a fresh encoder and a
rejecting codec. -/
theorem initialize_accepts_any_codec_result_witness :
    ((OggVorbisEncoder.new sink0 ogg0 vorbis0).initialize_with_bitrate 2 44100 128000
      none none (-1) 7).1 = Except.ok () ∧
    ((OggVorbisEncoder.new sink0 ogg0 vorbis0).initialize_with_vbr 2 44100
      (1 / 2) (-1) 7).1 = Except.ok () :=
  initialize_accepts_any_codec_result
    (OggVorbisEncoder.new sink0 ogg0 vorbis0)
    2 44100 128000 none none (1 / 2) (-1) 7 rfl

/-- C2: bitrate-mode initialize flushes the header page (4 bytes reach the
sink) but drops the byte count returned by write_flush (line 128), so len()
stays 0 instead of 4; the vbr path with the same header page does count the
4 bytes. The counter therefore undercounts the bytes physically written. -/
theorem initialize_drops_header_byte_count :
    ((OggVorbisEncoder.new sink0 ogg0 vorbis0).initialize_with_bitrate 2 44100 128000
        none none 0 7).1 = Except.ok () ∧
    ((OggVorbisEncoder.new sink0 ogg0 vorbis0).initialize_with_bitrate 2 44100 128000
        none none 0 7).2.file.data = [0, 1, 2, 3] ∧
    ((OggVorbisEncoder.new sink0 ogg0 vorbis0).initialize_with_bitrate 2 44100 128000
        none none 0 7).2.len = 0 ∧
    ((OggVorbisEncoder.new sink0 ogg0 vorbis0).initialize_with_vbr 2 44100
        (1 / 2) 0 7).2.file.data = [0, 1, 2, 3] ∧
    ((OggVorbisEncoder.new sink0 ogg0 vorbis0).initialize_with_vbr 2 44100
        (1 / 2) 0 7).2.len = 4 :=
  ⟨rfl, rfl, rfl, rfl, rfl⟩

/-- A framer state whose forced flush will yield an end-of-stream page
followed by a further page. -/
def oggFlushEos : OggState :=
  { serial := 0, packets := [], outQ := [], flushQ := [eosPage, samplePage] }

/-- C8 counterexample: in a forced-flush call (write_flush) whose first page
carries the end-of-stream flag, serialization does not stop: the following
page is also written to the sink (7 bytes in total, the trailing
[0, 1, 2, 3] being the post-end-of-stream page), contradicting the claim
that no further pages are written in that call. -/
theorem write_flush_continues_after_eos_page :
    (oggFlushEos.write_flush sink0).2.2 = 7 ∧
    (oggFlushEos.write_flush sink0).2.1.data = [4, 5, 6, 0, 1, 2, 3] :=
  ⟨rfl, rfl⟩

/-- C8 amended: only the heuristic page-out path stops early — write_page
serializes exactly the pages up to and including the first end-of-stream
page and leaves the rest queued — while the forced flush path (write_flush,
used at header time) serializes every page the flush yields, with no
end-of-stream stop. -/
theorem page_serialization_eos_stop (os : OggState) (file : Sink) :
    os.write_page file =
      ({ os with outQ := dropThroughEos os.outQ },
        writeSinkPages file (takeThroughEos os.outQ),
        pagesBytes (takeThroughEos os.outQ)) ∧
    os.write_flush file =
      ({ os with flushQ := [] },
        writeSinkPages file os.flushQ, pagesBytes os.flushQ) := by
  constructor
  · simp [OggState.write_page, write_page_go_eq]
  · simp [OggState.write_flush, write_flush_go_eq]

/-! Sink-independence lemmas for the drain loops, used for C4: the pure
components (framer state, byte count, trace) do not depend on the sink, and
a failing sink is left untouched. -/

theorem writePageBytes_failing_eq (file : Sink) (pg : Page) :
    (writePageBytes file pg).failing = file.failing := by
  by_cases h : file.failing <;> simp [writePageBytes, Sink.write_all, h]

theorem writeSinkPages_failing_eq (ps : List Page) :
    ∀ (file : Sink), (writeSinkPages file ps).failing = file.failing := by
  induction ps with
  | nil => intro file; rfl
  | cons pg rest ih =>
    intro file
    rw [writeSinkPages_cons, ih, writePageBytes_failing_eq]

theorem write_page_sink_indep (os : OggState) (f g : Sink) :
    (os.write_page f).1 = (os.write_page g).1 ∧
    (os.write_page f).2.2 = (os.write_page g).2.2 := by
  simp [OggState.write_page, write_page_go_eq]

theorem write_drain_packets_sink_indep (ps : List Packet) :
    ∀ (os : OggState) (f g : Sink) (acc : Nat) (tr : List DrainEv),
      (write_drain_packets ps os f acc tr).ogg =
        (write_drain_packets ps os g acc tr).ogg ∧
      (write_drain_packets ps os f acc tr).bytes =
        (write_drain_packets ps os g acc tr).bytes ∧
      (write_drain_packets ps os f acc tr).trace =
        (write_drain_packets ps os g acc tr).trace := by
  induction ps with
  | nil => intro os f g acc tr; exact ⟨rfl, rfl, rfl⟩
  | cons p rest ih =>
    intro os f g acc tr
    have hosf := write_page_sink_indep (ogg_stream_packetin os p) f g
    simp only [write_drain_packets, hosf.1, hosf.2]
    exact ih _ _ _ _ _

theorem write_drain_blocks_sink_indep (bs : List Block) :
    ∀ (os : OggState) (f g : Sink) (acc : Nat) (tr : List DrainEv),
      (write_drain_blocks bs os f acc tr).ogg =
        (write_drain_blocks bs os g acc tr).ogg ∧
      (write_drain_blocks bs os f acc tr).bytes =
        (write_drain_blocks bs os g acc tr).bytes ∧
      (write_drain_blocks bs os f acc tr).trace =
        (write_drain_blocks bs os g acc tr).trace := by
  induction bs with
  | nil => intro os f g acc tr; exact ⟨rfl, rfl, rfl⟩
  | cons b rest ih =>
    intro os f g acc tr
    have hp := write_drain_packets_sink_indep b.packets os f g acc
      (tr ++ [DrainEv.blockout, DrainEv.analysis, DrainEv.addblock])
    simp only [write_drain_blocks, hp.1, hp.2.1, hp.2.2]
    exact ih _ _ _ _ _

theorem write_page_failing_file (os : OggState) (f : Sink)
    (h : f.failing = true) : (os.write_page f).2.1 = f := by
  simp [OggState.write_page, write_page_go_eq, writeSinkPages_failing _ _ h]

theorem write_drain_packets_failing_file (ps : List Packet) :
    ∀ (os : OggState) (f : Sink), f.failing = true →
      ∀ (acc : Nat) (tr : List DrainEv),
        (write_drain_packets ps os f acc tr).file = f := by
  induction ps with
  | nil => intro os f _ acc tr; rfl
  | cons p rest ih =>
    intro os f h acc tr
    simp only [write_drain_packets,
      write_page_failing_file (ogg_stream_packetin os p) f h]
    exact ih _ _ h _ _

theorem write_drain_blocks_failing_file (bs : List Block) :
    ∀ (os : OggState) (f : Sink), f.failing = true →
      ∀ (acc : Nat) (tr : List DrainEv),
        (write_drain_blocks bs os f acc tr).file = f := by
  induction bs with
  | nil => intro os f _ acc tr; rfl
  | cons b rest ih =>
    intro os f h acc tr
    simp only [write_drain_blocks,
      write_drain_packets_failing_file b.packets os f h acc
        (tr ++ [DrainEv.blockout, DrainEv.analysis, DrainEv.addblock])]
    exact ih _ _ h _ _

/-- The same encoder put in front of a sink with identical contents whose
write calls all fail. -/
def failingCopy (f : Sink) : Sink :=
  { data := f.data, failing := true }

/-- C4: failures of the sink write operation are silently discarded: for
every public mutating call, running against a failing sink yields the same
result, lifecycle state, byte counter, framer state and codec state as
running against a working sink — the byte counter advances as if the
writes had succeeded — and the failing sink receives no bytes. -/
theorem io_failures_silently_discarded (op : Op) (e : OggVorbisEncoder) :
    (step op { e with file := failingCopy e.file }).1 = (step op e).1 ∧
    (step op { e with file := failingCopy e.file }).2.state =
      (step op e).2.state ∧
    (step op { e with file := failingCopy e.file }).2.file_size =
      (step op e).2.file_size ∧
    (step op { e with file := failingCopy e.file }).2.ogg =
      (step op e).2.ogg ∧
    (step op { e with file := failingCopy e.file }).2.vorbis =
      (step op e).2.vorbis ∧
    (step op { e with file := failingCopy e.file }).2.file.data =
      e.file.data := by
  cases op with
  | initOp c sr nb minB maxB cr sn =>
    cases hst : e.state with
    | Created =>
      simp [step, OggVorbisEncoder.initialize_with_bitrate, hst, OggState.write_flush,
        write_flush_go_eq, failingCopy,
        writeSinkPages_failing _ { data := e.file.data, failing := true } rfl]
    | Initialized => simp [step, OggVorbisEncoder.initialize_with_bitrate, hst, failingCopy]
    | Closed => simp [step, OggVorbisEncoder.initialize_with_bitrate, hst, failingCopy]
  | initVbrOp c sr q cr sn =>
    cases hst : e.state with
    | Created =>
      simp [step, OggVorbisEncoder.initialize_with_vbr, hst,
        OggState.write_flush, write_flush_go_eq, failingCopy,
        writeSinkPages_failing _ { data := e.file.data, failing := true } rfl]
    | Initialized =>
      simp [step, OggVorbisEncoder.initialize_with_vbr, hst, failingCopy]
    | Closed =>
      simp [step, OggVorbisEncoder.initialize_with_vbr, hst, failingCopy]
  | writeOp samples =>
    cases hst : e.state with
    | Created => simp [step, OggVorbisEncoder.write_samples, hst, failingCopy]
    | Initialized =>
      have hind := write_drain_blocks_sink_indep
        (e.vorbis.write_samples samples).blocks e.ogg
        { data := e.file.data, failing := true } e.file 0 []
      have hff := write_drain_blocks_failing_file
        (e.vorbis.write_samples samples).blocks e.ogg
        { data := e.file.data, failing := true } rfl 0 []
      simp [step, OggVorbisEncoder.write_samples, hst, OggState.write,
        hind.1, hind.2.1, hff, failingCopy]
    | Closed => simp [step, OggVorbisEncoder.write_samples, hst, failingCopy]
  | closeOp =>
    cases hst : e.state with
    | Created => simp [step, OggVorbisEncoder.close, hst, failingCopy]
    | Initialized =>
      have hind := write_drain_blocks_sink_indep
        (e.vorbis.close).blocks e.ogg
        { data := e.file.data, failing := true } e.file 0 []
      have hff := write_drain_blocks_failing_file
        (e.vorbis.close).blocks e.ogg
        { data := e.file.data, failing := true } rfl 0 []
      simp [step, OggVorbisEncoder.close, hst, OggState.write,
        hind.1, hind.2.1, hff, failingCopy]
    | Closed => simp [step, OggVorbisEncoder.close, hst, failingCopy]

/-! Trace lemmas for the drain loops, used for C7. -/

theorem write_drain_packets_trace (ps : List Packet) :
    ∀ (os : OggState) (file : Sink) (acc : Nat) (tr : List DrainEv),
      (write_drain_packets ps os file acc tr).trace =
        tr ++ ps.map DrainEv.flushpacket := by
  induction ps with
  | nil => intro os file acc tr; simp [write_drain_packets]
  | cons p rest ih =>
    intro os file acc tr
    simp [write_drain_packets, ih]

theorem write_drain_blocks_trace (bs : List Block) :
    ∀ (os : OggState) (file : Sink) (acc : Nat) (tr : List DrainEv),
      (write_drain_blocks bs os file acc tr).trace =
        tr ++ bs.flatMap (fun b =>
          DrainEv.blockout :: DrainEv.analysis :: DrainEv.addblock ::
            b.packets.map DrainEv.flushpacket) := by
  induction bs with
  | nil => intro os file acc tr; simp [write_drain_blocks]
  | cons b rest ih =>
    intro os file acc tr
    simp [write_drain_blocks, ih, write_drain_packets_trace]

/-- C7: the packet-draining loop of OggState::write performs, for each
available analysis block in order, exactly the steps: pull the block
(blockout), run the bitrate-management pass over it (analysis then
addblock), and flush its zero or more packets, until no block remains;
afterwards no block is left, and the step sequence is the same whether the
codec was configured in vbr mode or in bitrate mode. -/
theorem drain_loop_fixed_steps (os : OggState) (file : Sink)
    (v : VorbisState) :
    (os.write file v).1.trace =
      v.blocks.flatMap (fun b =>
        DrainEv.blockout :: DrainEv.analysis :: DrainEv.addblock ::
          b.packets.map DrainEv.flushpacket) ∧
    (os.write file v).2.blocks = [] ∧
    (os.write file { v with vbrMode := true }).1.trace =
      (os.write file { v with vbrMode := false }).1.trace := by
  refine ⟨?_, rfl, ?_⟩
  · simp [OggState.write, write_drain_blocks_trace]
  · simp [OggState.write, write_drain_blocks_trace]

/-! Indexing lemmas for the converted sample buffers, used for C6 and
C10. -/

theorem getD_take_lt (l : List Int) (m n : Nat) (h : m < n) :
    (l.take n).getD m 0 = l.getD m 0 := by
  simp [List.getD_eq_getElem?_getD, List.getElem?_take, h]

/-- C6: given an interleaved slice of N times C i16 samples with C the
configured channel count (1 or 2), the conversion inside write_samples
produces C per-channel sequences of length N, the element at frame i of
channel ch being the input sample at index i * C + ch divided by 32768 —
sequential copying for mono, even/odd de-interleaving into left/right for
stereo — and commits N frames. -/
theorem sample_conversion_correct (C N : Nat) (samples : List Int)
    (hC : C = 1 ∨ C = 2) (hlen : samples.length = N * C) :
    (convertSamples C samples).1.length = C ∧
    (convertSamples C samples).2 = N ∧
    (∀ ch, ch < C → ((convertSamples C samples).1.getD ch []).length = N) ∧
    (∀ ch, ch < C → ∀ i, i < N →
      ((convertSamples C samples).1.getD ch []).getD i 0 =
        ((samples.getD (i * C + ch) 0 : Int) : ℚ) / 32768) := by
  rcases hC with h1 | h2
  · subst h1
    have hN : samples.length = N := by omega
    refine ⟨by simp [convertSamples], by simp [convertSamples, hN], ?_, ?_⟩
    · intro ch hch
      interval_cases ch
      simp [convertSamples, hN]
    · intro ch hch i hi
      interval_cases ch
      have hi2 : i < samples.length := by omega
      simp [convertSamples, List.getElem?_eq_getElem hi2]
  · subst h2
    have hhalf : samples.length / 2 = N := by omega
    refine ⟨by simp [convertSamples], by simp [convertSamples, hhalf],
      ?_, ?_⟩
    · intro ch hch
      interval_cases ch <;> simp [convertSamples, hhalf]
    · intro ch hch i hi
      interval_cases ch
      · have hr : i < samples.length / 2 := by omega
        simp [convertSamples, List.getElem?_range hr]
      · have hr : i < samples.length / 2 := by omega
        simp [convertSamples, List.getElem?_range hr]

/-- Witness for C6 at a concrete input: the stereo slice [1, -2, 3, 4]
holding two frames. -/
theorem sample_conversion_correct_witness :
    (convertSamples 2 [1, -2, 3, 4]).1.length = 2 ∧
    (convertSamples 2 [1, -2, 3, 4]).2 = 2 ∧
    (∀ ch, ch < 2 →
      ((convertSamples 2 [1, -2, 3, 4]).1.getD ch []).length = 2) ∧
    (∀ ch, ch < 2 → ∀ i, i < 2 →
      ((convertSamples 2 [1, -2, 3, 4]).1.getD ch []).getD i 0 =
        ((([1, -2, 3, 4] : List Int).getD (i * 2 + ch) 0 : Int) : ℚ) /
          32768) :=
  sample_conversion_correct 2 2 [1, -2, 3, 4] (Or.inr rfl) (by decide)

/-- Unfolding equation of convertSamples in the stereo case. -/
theorem convertSamples_two (l : List Int) :
    convertSamples 2 l =
      ([(List.range (l.length / 2)).map
          (fun i : Nat => ((l.getD (i * 2) 0 : Int) : ℚ) / 32768),
        (List.range (l.length / 2)).map
          (fun i : Nat => ((l.getD (i * 2 + 1) 0 : Int) : ℚ) / 32768)],
        l.length / 2) :=
  rfl

/-- C10: on a stereo encoder, write_samples with a slice of odd length
2k + 1 does not fail: the conversion copies exactly k frames (samples 2i
and 2i + 1 for i < k), agrees with the conversion of the slice without its
final sample — which is silently ignored — commits k frames to the
encoder (the count passed to vorbis_analysis_wrote), and the call returns
Ok. -/
theorem stereo_odd_length_sample_ignored (e : OggVorbisEncoder)
    (samples : List Int) (k : Nat)
    (hst : e.state = EncoderState.Initialized)
    (hch : e.vorbis.channels = 2)
    (hlen : samples.length = 2 * k + 1) :
    (e.write_samples samples).1 = Except.ok () ∧
    convertSamples 2 samples = convertSamples 2 (samples.take (2 * k)) ∧
    (convertSamples 2 samples).2 = k ∧
    ((convertSamples 2 samples).1.getD 0 []).length = k ∧
    ((convertSamples 2 samples).1.getD 1 []).length = k ∧
    (∀ i, i < k →
      ((convertSamples 2 samples).1.getD 0 []).getD i 0 =
        ((samples.getD (i * 2) 0 : Int) : ℚ) / 32768 ∧
      ((convertSamples 2 samples).1.getD 1 []).getD i 0 =
        ((samples.getD (i * 2 + 1) 0 : Int) : ℚ) / 32768) ∧
    (e.write_samples samples).2.vorbis.wroteLog =
      e.vorbis.wroteLog ++ [k] := by
  have hhalf : samples.length / 2 = k := by omega
  have htake : (samples.take (2 * k)).length = 2 * k := by
    simp [List.length_take]
    omega
  have h2k : 2 * k / 2 = k := by omega
  have hmap0 : (List.range (samples.length / 2)).map
        (fun i : Nat => ((samples.getD (i * 2) 0 : Int) : ℚ) / 32768) =
      (List.range ((samples.take (2 * k)).length / 2)).map
        (fun i : Nat =>
          (((samples.take (2 * k)).getD (i * 2) 0 : Int) : ℚ) / 32768) := by
    rw [htake, h2k, hhalf]
    apply List.map_congr_left
    intro i hi
    have hi2 : i * 2 < 2 * k := by
      have := List.mem_range.mp hi
      omega
    rw [getD_take_lt samples _ _ hi2]
  have hmap1 : (List.range (samples.length / 2)).map
        (fun i : Nat => ((samples.getD (i * 2 + 1) 0 : Int) : ℚ) / 32768) =
      (List.range ((samples.take (2 * k)).length / 2)).map
        (fun i : Nat =>
          (((samples.take (2 * k)).getD (i * 2 + 1) 0 : Int) : ℚ) /
            32768) := by
    rw [htake, h2k, hhalf]
    apply List.map_congr_left
    intro i hi
    have hi2 : i * 2 + 1 < 2 * k := by
      have := List.mem_range.mp hi
      omega
    rw [getD_take_lt samples _ _ hi2]
  refine ⟨by simp [OggVorbisEncoder.write_samples, hst], ?_, ?_, ?_, ?_,
    ?_, ?_⟩
  · rw [convertSamples_two, convertSamples_two, hmap0, hmap1, htake, h2k,
      hhalf]
  · simp [convertSamples, hhalf]
  · simp [convertSamples, hhalf]
  · simp [convertSamples, hhalf]
  · intro i hi
    constructor
    · have hr : i < samples.length / 2 := by omega
      simp [convertSamples, List.getElem?_range hr]
    · have hr : i < samples.length / 2 := by omega
      simp [convertSamples, List.getElem?_range hr]
  · simp [OggVorbisEncoder.write_samples, hst, OggState.write,
      VorbisState.write_samples, hch, convertSamples, hhalf]

/-- Witness for C10 at a concrete input: the initialized stereo encoder and
the odd-length slice [5, 6, 7]. -/
theorem stereo_odd_length_sample_ignored_witness :
    (encInit.write_samples [5, 6, 7]).1 = Except.ok () ∧
    convertSamples 2 [5, 6, 7] =
      convertSamples 2 (([5, 6, 7] : List Int).take (2 * 1)) ∧
    (convertSamples 2 [5, 6, 7]).2 = 1 ∧
    ((convertSamples 2 [5, 6, 7]).1.getD 0 []).length = 1 ∧
    ((convertSamples 2 [5, 6, 7]).1.getD 1 []).length = 1 ∧
    (∀ i, i < 1 →
      ((convertSamples 2 [5, 6, 7]).1.getD 0 []).getD i 0 =
        ((([5, 6, 7] : List Int).getD (i * 2) 0 : Int) : ℚ) / 32768 ∧
      ((convertSamples 2 [5, 6, 7]).1.getD 1 []).getD i 0 =
        ((([5, 6, 7] : List Int).getD (i * 2 + 1) 0 : Int) : ℚ) / 32768) ∧
    (encInit.write_samples [5, 6, 7]).2.vorbis.wroteLog =
      encInit.vorbis.wroteLog ++ [1] :=
  stereo_odd_length_sample_ignored encInit [5, 6, 7] 1 rfl rfl (by decide)

end VorbisEnc
